import Mathlib

/-!
Verification of the conversation-reconciliation engine.

Shallow embedding of the conversation-reconciliation engine of the
cursor-chat-browser repository: the function `fetchConversationsForWorkspace`
of the export route and the (near-identical) conversation `GET` route.
The two routes share one pipeline, embedded once below.

Modelling conventions, used throughout:

* JavaScript values that may be `undefined` are `Option`; `a || b` (which in
  JS yields `b` whenever `a` is falsy, i.e. `undefined`, `null`, `""`, `0`,
  `NaN`) is rendered by the explicit truthiness helpers `jsTruthy`, `jsOr2`,
  `jsOrDefault`, `jsOrStr`, `tsOr` below.
* The JavaScript runtime's `Date` layer is external to the repository.  It is
  modelled by the instant a date denotes: a `Date` object is its time value in
  milliseconds since the epoch (`none` for an Invalid Date, whose
  `toISOString` throws a `RangeError`), and an ISO-8601 instant string is
  represented by the integer instant it denotes (`instAsRaw`), since per
  ECMA-262 `toISOString` followed by `new Date(string)` round-trips exactly.
  A non-ISO string fed to `new Date` is modelled by its host parse outcome
  (`some` instant, or `none` when the host yields an Invalid Date).
* SQLite, `JSON.parse` and the filesystem are external: each query result is
  supplied by an `Env` value, a JSON blob is represented by its parse outcome
  (`BlobVal` / `Except Unit`), and a thrown exception is `Except.error`.
* Machine integers: JS timestamps are embedded as unbounded `Int` with the
  explicit `Date` range bound `maxDateMs` (8.64e15 ms) where overflow
  matters; the code under analysis performs no wrapping arithmetic.
-/

/-- Message author, the `"user" | "assistant"` union of the source. -/
inductive Role where
  | user
  | assistant
deriving DecidableEq, Repr

/-- A JSON value that may be either a string or a number (the `type` fields
of the raw records are typed `number | string` in the source). -/
inductive StrNum where
  | str (s : String)
  | num (n : Int)
deriving DecidableEq, Repr

/-- Largest time value (in ms) a JS `Date` can hold: 8,640,000,000,000,000.
`new Date(v)` with `|v|` beyond this bound is an Invalid Date, and
`toISOString` on it throws a `RangeError`. -/
def maxDateMs : Int := 8640000000000000

/-- Input to `safeParseTimestamp`: `number | string | Date | undefined | null`.

* `null` covers both JS `null` and `undefined` (the function and JS
  truthiness treat them identically).
* `date t` is a `Date` object with time value `t` (`none` = Invalid Date).
* `str nonempty parsed` is a string, recorded by its JS truthiness
  (`nonempty`) together with the outcome of `new Date(string)` on it
  (`some` instant when the host parses it, `none` when that yields an
  Invalid Date).  An ISO string produced by `toISOString` of instant `i`
  is `str true (some i)`, see `instAsRaw`.
* `num n` is a (JSON-representable, hence finite) number, embedded as `Int`.
-/
inductive RawTimestamp where
  | null
  | date (t : Option Int)
  | str (nonempty : Bool) (parsed : Option Int)
  | num (n : Int)
deriving DecidableEq, Repr

/-- JS truthiness of a raw timestamp value (`undefined`/`null` falsy, every
object — even an Invalid Date — truthy, `""` falsy, `0` falsy). -/
def RawTimestamp.truthy : RawTimestamp → Bool
  | .null => false
  | .date _ => true
  | .str ne _ => ne
  | .num n => n != 0

/-- `a || b` on raw timestamp values: `b` whenever `a` is falsy. -/
def tsOr (a b : RawTimestamp) : RawTimestamp :=
  if a.truthy then a else b

/-- The ISO-8601 string rendering of instant `i`, as a `RawTimestamp` input
(nonempty, and parsed back by the host to exactly `i`, per ECMA-262). -/
def instAsRaw (i : Int) : RawTimestamp :=
  .str true (some i)

/-- The number branch of `safeParseTimestamp`:
`timestamp > 100000000000 ? timestamp : timestamp * 1000` — the time value
handed to `new Date`. -/
def msOfNum (n : Int) : Int :=
  if n > 100000000000 then n else n * 1000

/-- `safeParseTimestamp` of the source (identical in both routes), with the
ambient clock `now` (the instant `new Date()` denotes) made explicit.  The
returned ISO string is represented by the instant it denotes.

```
try {
  if (timestamp === null || timestamp === undefined) return new Date().toISOString();
  if (timestamp instanceof Date) return timestamp.toISOString();
  if (typeof timestamp === "string") {
    const date = new Date(timestamp);
    if (!isNaN(date.getTime())) return date.toISOString();
  }
  if (typeof timestamp === "number") {
    const d = new Date(timestamp > 100000000000 ? timestamp : timestamp * 1000);
    return d.toISOString();
  }
  return new Date().toISOString();
} catch (error) { return new Date().toISOString(); }
```

`toISOString` on an out-of-range or invalid time value throws a
`RangeError`, which the `catch` turns into `now`; a string whose host parse
is an Invalid Date falls through both remaining branches to the final
`return`. -/
def safeParseTimestamp (now : Int) : RawTimestamp → Int
  | .null => now
  | .date none => now
  | .date (some t) => if t.natAbs ≤ maxDateMs.natAbs then t else now
  | .str _ none => now
  | .str _ (some p) => p
  | .num n => if (msOfNum n).natAbs ≤ maxDateMs.natAbs then msOfNum n else now

/-! ## Char-level models of the JS string builtins used by the source

The JS runtime's string methods are external collaborators; they are
modelled here on the character list underlying a `String`, so that every
definition evaluates inside the kernel. -/

/-- Worker for `splitChar`. -/
def splitCharAux (sep : Char) : List Char → List (List Char)
  | [] => [[]]
  | c :: rest =>
    if c = sep then [] :: splitCharAux sep rest
    else
      match splitCharAux sep rest with
      | [] => [[c]]
      | h :: t => (c :: h) :: t

/-- JS `String.prototype.split` with a one-character separator (the source
only ever splits on `":"` and `"\n"`): `"" ↦ [""]`, `"a:b" ↦ ["a","b"]`,
`"a:" ↦ ["a",""]`. -/
def splitChar (sep : Char) (s : String) : List String :=
  (splitCharAux sep s.data).map (fun l => ⟨l⟩)

/-- JS `String.prototype.trim`: strip whitespace from both ends. -/
def jsTrim (s : String) : String :=
  ⟨((s.data.dropWhile Char.isWhitespace).reverse.dropWhile Char.isWhitespace).reverse⟩

/-- JS `String.prototype.slice(0, n)` (the sliced ids are ASCII, so code
points and UTF-16 units coincide). -/
def takeChars (n : Nat) (s : String) : String :=
  ⟨s.data.take n⟩

/-! ## JS truthiness helpers for strings -/

/-- JS truthiness of an optional string: `undefined` and `""` are falsy. -/
def jsTruthy (o : Option String) : Bool :=
  match o with
  | some s => !(s == "")
  | none => false

/-- `a || b` on optional strings: `b`'s value whenever `a` is falsy. -/
def jsOr2 (a b : Option String) : Option String :=
  if jsTruthy a then a else b

/-- `a || b || ""` on optional strings, as used for message content. -/
def jsOrDefault (a b : Option String) : String :=
  (jsOr2 (jsOr2 a b) (some "")).getD ""

/-- `a || b` where the right operand is a plain (always present) string. -/
def jsOrStr (a : Option String) (b : String) : String :=
  if jsTruthy a then a.getD "" else b

/-! ## Data model -/

/-- Canonical message ("bubble") produced by `createBubble` in the source.
`originalSource` is always supplied by the callers, hence plain `String`. -/
structure ChatBubble where
  role : Role
  content : String
  id : Option String
  originalType : Option StrNum
  originalSource : String
deriving DecidableEq, Repr

/-- Raw message record of a legacy chat tab (`RawBubble` of the source). -/
structure RawBubble where
  role : Option String
  type : Option StrNum
  content : Option String
  text : Option String
  id : Option String
  bubbleId : Option String
deriving DecidableEq, Repr

/-- Raw legacy chat tab (`RawTab` of the source).  `bubbles` may be absent
(the source guards with `tab.bubbles || []`); `lastSendTime` is fed to
`safeParseTimestamp` unchecked, hence kept as a `RawTimestamp`. -/
structure RawTab where
  tabId : String
  chatTitle : Option String
  lastSendTime : RawTimestamp
  bubbles : Option (List RawBubble)
deriving DecidableEq, Repr

/-- Decoded chat-data blob: `{ tabs?: RawTab[] }` (guarded by
`chatData.tabs || []`). -/
structure ChatData where
  tabs : Option (List RawTab)
deriving DecidableEq, Repr

/-- One entry of the workspace's composer-metadata index
(`composerMetadataForGlobal.allComposers[i]`).  Absent timestamp fields are
`RawTimestamp.null` (the code treats `undefined` and `null` alike). -/
structure ComposerMetaEntry where
  composerId : String
  name : Option String
  createdAt : RawTimestamp
  lastUpdatedAt : RawTimestamp
deriving DecidableEq, Repr

/-- Decoded composer-metadata blob: `{ allComposers: [...] }`.  A blob whose
`allComposers` is missing makes the source throw on `.map`, which is covered
by the `malformed` blob state below. -/
structure ComposerMetaBlob where
  allComposers : List ComposerMetaEntry
deriving DecidableEq, Repr

/-- Raw message inside a composer body (`ComposerMessage` of the source).
The source never reads its `lastUpdatedAt` field, so it is omitted. -/
structure ComposerMessage where
  role : Option String
  type : Option StrNum
  content : Option String
  text : Option String
  id : Option String
deriving DecidableEq, Repr

/-- One `fullConversationHeadersOnly` entry; only `bubbleId` is read. -/
structure HeaderEntry where
  bubbleId : String
deriving DecidableEq, Repr

/-- Composer body fetched from the global store under `composerData:<id>`
(`ComposerInstance` of the source).  `latestSummary` is the flattened
optional chain `latestConversationSummary?.summary?.summary`. -/
structure ComposerInstance where
  composerId : String
  name : Option String
  createdAt : RawTimestamp
  lastUpdatedAt : RawTimestamp
  messages : Option (List ComposerMessage)
  conversation : Option (List ComposerMessage)
  fullConversationHeadersOnly : Option (List HeaderEntry)
  latestSummary : Option String
deriving DecidableEq, Repr

/-- Decoded global-store bubble record (fields of `bubbleData` the scan
reads). -/
structure BubbleData where
  type : Option StrNum
  text : Option String
  richText : Option String
  bubbleId : Option String
deriving DecidableEq, Repr

deriving instance DecidableEq for Except

/-- One row returned by the `LIKE 'bubbleId:%'` scan: its key and the parse
outcome of its value (`Except.error` when `JSON.parse` would throw; the scan
swallows that per row). -/
structure BubbleRow where
  key : String
  value : Except Unit BubbleData
deriving DecidableEq, Repr

/-- State of a JSON blob sitting behind a workspace-store key: the row may
be missing or hold a falsy value (`absent`, the source's
`result && result.value` guard fails), `JSON.parse` of the value may throw
(`malformed`), or it decodes (`ok`). -/
inductive BlobVal (α : Type) where
  | absent
  | malformed
  | ok (a : α)
deriving DecidableEq, Repr

/-- Provisional conversation accumulated during reconciliation
(`TempConversation` of the source; its `bubbles` field stays `[]` until the
final consolidation, which reads `allBubblesMap` instead). -/
structure TempConversation where
  id : String
  title : String
  summary : Option String
  lastUpdatedAt : Int
  createdAt : Int
  bubbles : List ChatBubble
deriving DecidableEq, Repr

/-- Final per-conversation output shape (`ResponseConversation`). -/
structure ResponseConversation where
  id : String
  name : String
  summary : Option String
  messages : List ChatBubble
  createdAt : Int
  lastUpdatedAt : Int
deriving DecidableEq, Repr

/-! ## JS `Map`, embedded as an insertion-ordered association list -/

/-- A JS `Map` with string keys: an association list in insertion order.
`set` on an existing key updates in place (JS `Map.set` keeps the original
insertion position); iteration (`forEach`) follows `entries` order. -/
structure JsMap (β : Type) where
  entries : List (String × β)
deriving DecidableEq, Repr

/-- `Map.get`. -/
def JsMap.get? (m : JsMap β) (k : String) : Option β :=
  (m.entries.find? (fun p => p.1 == k)).map (fun p => p.2)

/-- `Map.has`. -/
def JsMap.has (m : JsMap β) (k : String) : Bool :=
  m.entries.any (fun p => p.1 == k)

/-- `Map.set`. -/
def JsMap.set (m : JsMap β) (k : String) (v : β) : JsMap β :=
  if m.has k then
    ⟨m.entries.map (fun p => if p.1 == k then (k, v) else p)⟩
  else
    ⟨m.entries ++ [(k, v)]⟩

/-- The empty `Map`. -/
def JsMap.empty : JsMap β := ⟨[]⟩

/-- `Map.size > 0` (the source checks `headerMap.size > 0`). -/
def JsMap.nonempty (m : JsMap β) : Bool :=
  !m.entries.isEmpty

/-! ## Bubble normalization (one function per source kind) -/

/-- `createBubble` of the source. -/
def createBubble (role : Role) (content : String) (id : Option String)
    (originalType : Option StrNum) (originalSource : String) : ChatBubble :=
  { role := role, content := content, id := id,
    originalType := originalType, originalSource := originalSource }

/-- Normalization of one legacy chat-tab bubble (the loop body over
`tab.bubbles`): role is `"user"` iff `b.role === "user" || b.type === "user"`;
content is `b.content || b.text || ""`; a record whose content trims to empty
produces nothing; the id is `b.id || b.bubbleId`. -/
def normalizeChatBubble (b : RawBubble) : Option ChatBubble :=
  let role := if b.role == some "user" || b.type == some (.str "user")
    then Role.user else Role.assistant
  let content := jsOrDefault b.content b.text
  if !(jsTrim content == "") then
    some (createBubble role content (jsOr2 b.id b.bubbleId) b.type "chatResult")
  else none

/-- Normalization of one composer message (the loop body over
`messagesSource`): role is `"user"` iff `msg.role === "user" || msg.type === 1`;
content is `msg.content || msg.text || ""`; empty content produces nothing;
the id is `msg.id`. -/
def normalizeComposerMessage (m : ComposerMessage) : Option ChatBubble :=
  let role := if m.role == some "user" || m.type == some (.num 1)
    then Role.user else Role.assistant
  let content := jsOrDefault m.content m.text
  if !(jsTrim content == "") then
    some (createBubble role content m.id m.type "composerMessage")
  else none

/-! ## The reconciliation state machine -/

/-- The three accumulating maps of one reconciliation run (the
workspace-membership set is passed separately to the phase that reads it). -/
structure ReconState where
  allConversationsMap : JsMap TempConversation
  allBubblesMap : JsMap (List ChatBubble)
  headerOrderMap : JsMap (JsMap Nat)
deriving DecidableEq, Repr

/-- The empty initial state. -/
def ReconState.init : ReconState :=
  { allConversationsMap := JsMap.empty, allBubblesMap := JsMap.empty,
    headerOrderMap := JsMap.empty }

/-- Phase 1 step: one legacy chat tab.  Bubbles are normalized and staged
under the tab id; a provisional conversation is created with title
`chatTitle`'s first line or `Chat <first-8-chars>`, and both timestamps from
`lastSendTime`. -/
def processTab (now : Int) (st : ReconState) (tab : RawTab) : ReconState :=
  let processedBubbles := (tab.bubbles.getD []).filterMap normalizeChatBubble
  let title := jsOrStr (tab.chatTitle.map (fun t => (splitChar '\n' t).headD ""))
    ("Chat " ++ takeChars 8 tab.tabId)
  { st with
    allBubblesMap := st.allBubblesMap.set tab.tabId processedBubbles,
    allConversationsMap := st.allConversationsMap.set tab.tabId
      ({ id := tab.tabId, title := title, summary := none,
         lastUpdatedAt := safeParseTimestamp now tab.lastSendTime,
         createdAt := safeParseTimestamp now tab.lastSendTime,
         bubbles := [] }) }

/-- `fullConversationHeadersOnly.forEach((header, index) => orderMap.set(header.bubbleId, index))`. -/
def buildOrderMap (hs : List HeaderEntry) : JsMap Nat :=
  hs.enum.foldl (fun m p => m.set p.2.bubbleId p.1) JsMap.empty

/-- Phase 2 step: one composer body.  Captures the Order Hint Map when
`fullConversationHeadersOnly` is present and non-empty, appends the
normalized `messages || conversation` list to the staged bubbles, then either
merges into an existing provisional conversation (composer data wins
field-wise when truthy) or creates a new one. -/
def processComposer (now : Int) (st : ReconState) (c : ComposerInstance) : ReconState :=
  let composerId := c.composerId
  let existingBubbles := (st.allBubblesMap.get? composerId).getD []
  let st :=
    match c.fullConversationHeadersOnly with
    | some hs =>
      if hs.length != 0 then
        { st with headerOrderMap := st.headerOrderMap.set composerId (buildOrderMap hs) }
      else st
    | none => st
  -- `composer.messages || composer.conversation` (an array, even empty, is
  -- truthy; the source's extra `Array.isArray` guard always holds in this
  -- typed model)
  let messagesSource :=
    match c.messages with
    | some ms => some ms
    | none => c.conversation
  let newBubbles := existingBubbles ++ (messagesSource.getD []).filterMap normalizeComposerMessage
  let st := { st with allBubblesMap := st.allBubblesMap.set composerId newBubbles }
  match st.allConversationsMap.get? composerId with
  | some existingConv =>
    { st with
      allConversationsMap := st.allConversationsMap.set composerId
        ({ existingConv with
           title := jsOrStr c.name existingConv.title,
           summary := jsOr2 c.latestSummary existingConv.summary,
           lastUpdatedAt := safeParseTimestamp now
             (tsOr c.lastUpdatedAt (tsOr c.createdAt (instAsRaw existingConv.lastUpdatedAt))),
           createdAt := safeParseTimestamp now
             (tsOr c.createdAt (instAsRaw existingConv.createdAt)) }) }
  | none =>
    { st with
      allConversationsMap := st.allConversationsMap.set composerId
        ({ id := composerId,
           title := jsOrStr c.name ("Chat " ++ takeChars 8 composerId),
           summary := jsOr2 c.latestSummary c.name,
           lastUpdatedAt := safeParseTimestamp now (tsOr c.lastUpdatedAt c.createdAt),
           createdAt := safeParseTimestamp now (tsOr c.createdAt c.lastUpdatedAt),
           bubbles := [] }) }

/-- Phase 3 step: one row of the global `bubbleId:%` scan (the body of the
source's per-row `try`; a value whose `JSON.parse` throws leaves the state
untouched).  The key is split on `":"`; a record whose key-embedded composer
id is not in the workspace-membership list is skipped (`continue`).  For an
admitted record with non-whitespace content, the bubble is staged, and the
owning conversation is created from the composer-metadata entry (or synthetic
defaults) if absent, else its `lastUpdatedAt` is refreshed from composer
metadata when that is truthy. -/
def processGlobalBubbleRow (now : Int) (allComposers : List ComposerMetaEntry)
    (workspaceComposerIds : List String) (st : ReconState) (row : BubbleRow) :
    ReconState :=
  match row.value with
  | .error _ => st
  | .ok bubbleData =>
    let keyParts := splitChar ':' row.key
    if keyParts.length > 1 then
      let composerId := keyParts.getD 1 ""
      if workspaceComposerIds.contains composerId then
        let role :=
          if bubbleData.type == some (.num 1) then Role.user
          else if bubbleData.type == some (.num 0) || bubbleData.type == some (.num 2)
            then Role.assistant
          else Role.assistant
        let textContent := jsOrDefault bubbleData.text bubbleData.richText
        if !(jsTrim textContent == "") then
          let existingBubbles := (st.allBubblesMap.get? composerId).getD []
          let newBubbles := existingBubbles ++
            [createBubble role textContent (jsOr2 bubbleData.bubbleId (keyParts.get? 2))
              bubbleData.type "globalBubble"]
          let st := { st with allBubblesMap := st.allBubblesMap.set composerId newBubbles }
          match st.allConversationsMap.get? composerId with
          | none =>
            let composerMeta := allComposers.find? (fun c => c.composerId == composerId)
            let title :=
              match composerMeta with
              | some m => jsOrStr m.name ("Chat " ++ takeChars 8 composerId)
              | none => "Chat " ++ takeChars 8 composerId
            { st with
              allConversationsMap := st.allConversationsMap.set composerId
                ({ id := composerId, title := title, summary := none,
                   lastUpdatedAt := safeParseTimestamp now
                     (tsOr (match composerMeta with | some m => m.lastUpdatedAt | none => .null) .null),
                   createdAt := safeParseTimestamp now
                     (tsOr (match composerMeta with | some m => m.createdAt | none => .null) .null),
                   bubbles := [] }) }
          | some conv =>
            let composerMeta := allComposers.find? (fun c => c.composerId == composerId)
            match composerMeta with
            | some m =>
              if m.lastUpdatedAt.truthy then
                { st with
                  allConversationsMap := st.allConversationsMap.set composerId
                    ({ conv with lastUpdatedAt := safeParseTimestamp now m.lastUpdatedAt }) }
              else st
            | none => st
        else st
      else st
    else st

/-! ## Deduplication and ordering -/

/-- The predicate of the source's dedup `findIndex`, with the reference
bubble fixed: `(b) => b.content === bubble.content && b.role === bubble.role`. -/
def sameKey (bubble : ChatBubble) (b : ChatBubble) : Bool :=
  b.content == bubble.content && b.role == bubble.role

/-- Worker for `dedupBubbles`: `seen` holds all strictly earlier elements. -/
def dedupKeep (seen : List ChatBubble) : List ChatBubble → List ChatBubble
  | [] => []
  | b :: rest =>
    if seen.any (sameKey b) then dedupKeep (seen ++ [b]) rest
    else b :: dedupKeep (seen ++ [b]) rest

/-- The source's
`filter((bubble, index, self) => index === self.findIndex((b) => b.content === bubble.content && b.role === bubble.role))`:
an element is kept exactly when its index is the first index carrying its
(role, content) pair, i.e. when no strictly earlier element shares the pair.
(`dedupBubbles_eq_filterFirstIdx` below certifies the equivalence with the
index-based phrasing.) -/
def dedupBubbles (l : List ChatBubble) : List ChatBubble :=
  dedupKeep [] l

/-- The index-based rendering of the source's dedup filter, stated literally
with `findIdx?`. -/
def filterFirstIdx (l : List ChatBubble) : List ChatBubble :=
  (l.enum.filter (fun p => l.findIdx? (sameKey p.2) == some p.1)).map (fun p => p.2)

/-- `headerMap.get(a.id || "")`: the order hint attached to a bubble. -/
def bubbleHint (headerMap : JsMap Nat) (b : ChatBubble) : Option Nat :=
  headerMap.get? (b.id.getD "")

/-- The sort comparator of the source:
hinted-vs-hinted compares hint positions, a hinted bubble precedes an
unhinted one, two unhinted bubbles compare equal (stability keeps their
relative order). -/
def bubbleCompare (headerMap : JsMap Nat) (a b : ChatBubble) : Int :=
  match bubbleHint headerMap a, bubbleHint headerMap b with
  | some ia, some ib => (ia : Int) - ib
  | some _, none => -1
  | none, some _ => 1
  | none, none => 0

/-- Per-conversation consolidation: deduplicate the staged bubbles, then,
when an order-hint map exists and is non-empty, stable-sort by the
comparator.  ECMAScript's `Array.prototype.sort` (stable per the standard)
is modelled by `List.insertionSort` with the relation `compare ≤ 0`; for a
comparator induced by a total preorder — which `bubbleCompare` is — every
stable sort produces this same list. -/
def finalizeBubbles (headerMap : Option (JsMap Nat)) (staged : List ChatBubble) :
    List ChatBubble :=
  let uniqueBubbles := dedupBubbles staged
  match headerMap with
  | some hm =>
    if hm.nonempty then
      uniqueBubbles.insertionSort (fun a b => bubbleCompare hm a b ≤ 0)
    else uniqueBubbles
  | none => uniqueBubbles

/-- Final assembly: walk `allConversationsMap` in insertion order,
consolidate each conversation's staged bubbles, keep only conversations with
at least one resulting message, and sort descending by `lastUpdatedAt`
(the comparator `(a, b) => new Date(b.lastUpdatedAt) - new Date(a.lastUpdatedAt)`,
again as a stable sort). -/
def buildStep (st : ReconState) (acc : List ResponseConversation)
    (p : String × TempConversation) : List ResponseConversation :=
  let tempConv := p.2
  let uniqueBubbles := finalizeBubbles (st.headerOrderMap.get? tempConv.id)
    ((st.allBubblesMap.get? tempConv.id).getD [])
  if uniqueBubbles.length > 0 then
    acc ++ [{ id := tempConv.id, name := tempConv.title, summary := tempConv.summary,
              messages := uniqueBubbles, createdAt := tempConv.createdAt,
              lastUpdatedAt := tempConv.lastUpdatedAt }]
  else acc

def buildFinal (st : ReconState) : List ResponseConversation :=
  let l := st.allConversationsMap.entries.foldl (buildStep st) []
  l.insertionSort (fun a b => b.lastUpdatedAt - a.lastUpdatedAt ≤ 0)

/-! ## The environment and the top-level fetch -/

/-- Everything `fetchConversationsForWorkspace` observes from the outside
world during one run, in the order the source performs its I/O:

* `wsDbExists` — `existsSync(dbPath)` for the workspace store;
* `wsOpenThrows` — whether `open` on the workspace store throws;
* `chatQuery` / `composerMetaQuery` — the two `ItemTable` lookups: a thrown
  query is `.error`, otherwise the blob state (`absent` = no row or falsy
  value, `malformed` = `JSON.parse` would throw, `ok` = decoded value);
* `globalDbExists` / `globalOpenThrows` — `existsSync` and `open` for the
  global store (an open failure is caught locally: the source logs a warning
  and continues without the global store);
* `composerRows` — the `cursorDiskKV` rows holding composer bodies, as
  (key, parse outcome); the `IN (...)` batch query returns the sublist whose
  keys are requested, and one malformed row fails the whole `.map(JSON.parse)`;
* `composerBodiesQueryThrows` / `bubblesQueryThrows` — whether the two
  global-store queries themselves throw;
* `bubbleRows` — the rows returned by the `LIKE 'bubbleId:%'` scan;
* `now` — the instant the ambient clock reports (`new Date()`).
-/
structure Env where
  wsDbExists : Bool
  wsOpenThrows : Bool
  chatQuery : Except Unit (BlobVal ChatData)
  composerMetaQuery : Except Unit (BlobVal ComposerMetaBlob)
  globalDbExists : Bool
  globalOpenThrows : Bool
  composerRows : List (String × Except Unit ComposerInstance)
  composerBodiesQueryThrows : Bool
  bubbleRows : List BubbleRow
  bubblesQueryThrows : Bool
  now : Int
deriving DecidableEq, Repr

/-- `composersBodyResult.map((it) => JSON.parse(it.value))`: the first
malformed row throws out of the whole map. -/
def parseComposerRows :
    List (String × Except Unit ComposerInstance) → Except Unit (List ComposerInstance)
  | [] => .ok []
  | (_, .error e) :: _ => .error e
  | (_, .ok c) :: rest =>
    match parseComposerRows rest with
    | .error e => .error e
    | .ok cs => .ok (c :: cs)

/-- Phase 1, over the chat-data blob: absent blob skips the phase, a
malformed blob throws (caught only at the top level), a decoded blob folds
`processTab` over `chatData.tabs || []`. -/
def processChatBlob (now : Int) (blob : BlobVal ChatData) (st : ReconState) :
    Except Unit ReconState :=
  match blob with
  | .absent => .ok st
  | .malformed => .error ()
  | .ok chatData => .ok ((chatData.tabs.getD []).foldl (processTab now) st)

/-- Phase 2, run only when the global store was opened: build the
`composerData:` key list from `allComposers`, batch-fetch the composer
bodies and fold them (skipped entirely when there are no keys). -/
def composerPhase (env : Env) (blob : ComposerMetaBlob) (st : ReconState) :
    Except Unit ReconState :=
  let keys := blob.allComposers.map (fun it => "composerData:" ++ it.composerId)
  if keys.length > 0 then
    if env.composerBodiesQueryThrows then .error ()
    else
      match parseComposerRows (env.composerRows.filter (fun r => keys.contains r.1)) with
      | .error e => .error e
      | .ok parsedComposers => .ok (parsedComposers.foldl (processComposer env.now) st)
  else .ok st

/-- Phase 3: the global bubble scan, gated by the workspace-membership
list. -/
def globalBubblePhase (env : Env) (blob : ComposerMetaBlob) (st1 : ReconState) :
    Except Unit ReconState :=
  if env.bubblesQueryThrows then .error ()
  else .ok (env.bubbleRows.foldl
    (processGlobalBubbleRow env.now blob.allComposers
      (blob.allComposers.map (fun it => it.composerId))) st1)

/-- Phases 2 and 3 in sequence (the body of the source's `if (globalDb)`
block after the membership list and key list are built). -/
def globalSection (env : Env) (blob : ComposerMetaBlob) (st : ReconState) :
    Except Unit ReconState :=
  match composerPhase env blob st with
  | .error e => .error e
  | .ok st1 => globalBubblePhase env blob st1

/-- The body of `fetchConversationsForWorkspace` inside its `try`: `.error`
is a thrown exception reaching the top-level `catch`.  A missing workspace
store file returns `[]` outright.  The global section runs only when the
composer-metadata blob is present (truthy) AND the global store file exists
AND opening it does not throw — an open failure there is caught locally and
reconciliation continues with workspace-local data only.  Note the
composer-metadata blob is `JSON.parse`d only inside the `if (globalDb)`
block, so a malformed metadata blob throws only when the global store was
opened. -/
def runFetch (env : Env) : Except Unit (List ResponseConversation) :=
  if !env.wsDbExists then .ok []
  else if env.wsOpenThrows then .error ()
  else
    match env.chatQuery with
    | .error e => .error e
    | .ok chatBlob =>
      match env.composerMetaQuery with
      | .error e => .error e
      | .ok metaBlob =>
        match processChatBlob env.now chatBlob ReconState.init with
        | .error e => .error e
        | .ok st1 =>
          match metaBlob with
          | .absent => .ok (buildFinal st1)
          | .malformed =>
            if env.globalDbExists && !env.globalOpenThrows then .error ()
            else .ok (buildFinal st1)
          | .ok blob =>
            if env.globalDbExists && !env.globalOpenThrows then
              match globalSection env blob st1 with
              | .error e => .error e
              | .ok st2 => .ok (buildFinal st2)
            else .ok (buildFinal st1)

/-- `fetchConversationsForWorkspace`: the top-level `catch` turns any thrown
exception into the empty list, so the function is total — no exception
surfaces to the caller. -/
def fetchConversationsForWorkspace (env : Env) : List ResponseConversation :=
  match runFetch env with
  | .ok l => l
  | .error _ => []

/-! ## Predicates and fixtures used by the claim statements -/

/-- Two bubbles differ on the deduplication key (role, content). -/
def DistinctRC (a b : ChatBubble) : Prop :=
  ¬(a.role = b.role ∧ a.content = b.content)

/-- Inputs on which `safeParseTimestamp` falls back to the ambient clock:
`null`/`undefined`, an invalid `Date`, a `Date` whose `toISOString` throws,
an unparseable string, and a number whose derived time value is out of the
`Date` range. -/
def usesClockFallback : RawTimestamp → Bool
  | .null => true
  | .date none => true
  | .date (some t) => if t.natAbs ≤ maxDateMs.natAbs then false else true
  | .str _ none => true
  | .str _ (some _) => false
  | .num n => if (msOfNum n).natAbs ≤ maxDateMs.natAbs then false else true

/-- Host invariant on a raw timestamp: a string's host parse, when it is not
an Invalid Date, lies in the `Date` range (ECMA-262 time values are clipped
to `|t| ≤ 8.64e15`; everything outside becomes `NaN`).  The other shapes
carry their own in-range checks inside `safeParseTimestamp`. -/
def RawTimestamp.WF : RawTimestamp → Prop
  | .str _ (some p) => p.natAbs ≤ maxDateMs.natAbs
  | _ => True

/-- Host invariant for a composer-metadata entry's timestamp fields. -/
def ComposerMetaEntry.WF (e : ComposerMetaEntry) : Prop :=
  e.createdAt.WF ∧ e.lastUpdatedAt.WF

/-- Host invariant for a composer body's timestamp fields. -/
def ComposerInstance.WF (c : ComposerInstance) : Prop :=
  c.createdAt.WF ∧ c.lastUpdatedAt.WF

/-- Host invariants of an environment: the ambient clock and every raw
timestamp the run can read are in the `Date` range whenever they are
strings the host parsed. -/
def Env.WF (env : Env) : Prop :=
  env.now.natAbs ≤ maxDateMs.natAbs ∧
  (∀ cd, env.chatQuery = .ok (.ok cd) →
    ∀ tab ∈ cd.tabs.getD [], tab.lastSendTime.WF) ∧
  (∀ blob, env.composerMetaQuery = .ok (.ok blob) →
    ∀ e ∈ blob.allComposers, e.WF) ∧
  (∀ k ci, (k, Except.ok ci) ∈ env.composerRows → ci.WF)

/-- All conversations accumulated so far carry in-range timestamps. -/
def ReconState.TsBounded (st : ReconState) : Prop :=
  ∀ p ∈ st.allConversationsMap.entries,
    p.2.createdAt.natAbs ≤ maxDateMs.natAbs ∧
    p.2.lastUpdatedAt.natAbs ≤ maxDateMs.natAbs

/-- The workspace-membership set an environment gives rise to (the composer
ids of the decoded composer-metadata blob; empty when that blob is missing
or malformed — in those cases the global scan never runs). -/
def workspaceIdsOf (env : Env) : List String :=
  match env.composerMetaQuery with
  | .ok (.ok blob) => blob.allComposers.map (fun it => it.composerId)
  | _ => []

/-- A global-store row that the isolation rule does NOT discard: its key has
no embedded composer id at all, or the embedded id is in the membership
list. -/
def rowFromWorkspace (ids : List String) (row : BubbleRow) : Bool :=
  decide ((splitChar ':' row.key).length ≤ 1) ||
    ids.contains ((splitChar ':' row.key).getD 1 "")

/-- The global store gets opened: its file exists and `open` does not throw. -/
def globalOpened (env : Env) : Bool :=
  env.globalDbExists && !env.globalOpenThrows

/-- A failure of one of the global-store queries (or of the
composer-body `JSON.parse` map, which is not individually guarded). -/
def GlobalQueryFails (env : Env) (blob : ComposerMetaBlob) : Prop :=
  (blob.allComposers ≠ [] ∧ env.composerBodiesQueryThrows = true) ∨
  (blob.allComposers ≠ [] ∧ env.composerBodiesQueryThrows = false ∧
    ∃ e, parseComposerRows (env.composerRows.filter (fun r =>
      (blob.allComposers.map (fun it => "composerData:" ++ it.composerId)).contains r.1)) =
      .error e) ∨
  env.bubblesQueryThrows = true

/-- The failure conditions under which the per-workspace fetch yields `[]`:
missing workspace store file; a throw opening or querying the workspace
store; a malformed chat-data blob; and — only once the global store was
actually opened — a malformed composer-metadata blob or a failing
global-store query.  (A failure opening the global store itself is *not*
listed: the source catches it locally and continues with workspace data.) -/
def FetchFails (env : Env) : Prop :=
  env.wsDbExists = false ∨
  env.wsOpenThrows = true ∨
  env.chatQuery = .error () ∨
  env.composerMetaQuery = .error () ∨
  env.chatQuery = .ok .malformed ∨
  (globalOpened env = true ∧ env.composerMetaQuery = .ok .malformed) ∨
  (globalOpened env = true ∧
    ∃ blob, env.composerMetaQuery = .ok (.ok blob) ∧ GlobalQueryFails env blob)

/-! ### Concrete fixtures for counterexamples and witnesses -/

/-- A staged message without an order hint. -/
def msgA : ChatBubble :=
  { role := .user, content := "A", id := some "a", originalType := none,
    originalSource := "chatResult" }

/-- A staged message hinted to position 0. -/
def msgB : ChatBubble :=
  { role := .user, content := "B", id := some "b", originalType := none,
    originalSource := "chatResult" }

/-- A staged message hinted to position 1. -/
def msgC : ChatBubble :=
  { role := .user, content := "C", id := some "c", originalType := none,
    originalSource := "chatResult" }

/-- Order hints: `b ↦ 0`, `c ↦ 1`, nothing for `a`. -/
def hintMapBC : JsMap Nat := ⟨[("b", 0), ("c", 1)]⟩

/-- One well-formed chat tab with a single non-empty user bubble. -/
def tabT1 : RawTab :=
  { tabId := "t1", chatTitle := some "Hello\nworld", lastSendTime := .num 1700000000,
    bubbles := some [{ role := some "user", type := none, content := some "Hi",
                       text := none, id := none, bubbleId := none }] }

/-- Environment refuting C3: the workspace store is fine and holds one chat
tab, composer metadata is present, the global store file exists but opening
it THROWS — and the fetch still returns that tab's conversation. -/
def c3Env : Env :=
  { wsDbExists := true, wsOpenThrows := false,
    chatQuery := .ok (.ok { tabs := some [tabT1] }),
    composerMetaQuery := .ok (.ok { allComposers := [] }),
    globalDbExists := true, globalOpenThrows := true,
    composerRows := [], composerBodiesQueryThrows := false,
    bubbleRows := [], bubblesQueryThrows := false, now := 42 }

/-- Environment with a missing workspace store file (C3 witness input). -/
def c3AbsentEnv : Env :=
  { wsDbExists := false, wsOpenThrows := false,
    chatQuery := .ok .absent, composerMetaQuery := .ok .absent,
    globalDbExists := false, globalOpenThrows := false,
    composerRows := [], composerBodiesQueryThrows := false,
    bubbleRows := [], bubblesQueryThrows := false, now := 0 }

/-- Spec §8 scenario-1 environment: one chat tab, no composer metadata. -/
def scenario1Env : Env :=
  { wsDbExists := true, wsOpenThrows := false,
    chatQuery := .ok (.ok { tabs := some [tabT1] }),
    composerMetaQuery := .ok .absent,
    globalDbExists := false, globalOpenThrows := false,
    composerRows := [], composerBodiesQueryThrows := false,
    bubbleRows := [], bubblesQueryThrows := false, now := 42 }

/-- The single conversation scenario 1 produces. -/
def scenario1Conv : ResponseConversation :=
  { id := "t1", name := "Hello", summary := none,
    messages := [{ role := .user, content := "Hi", id := none, originalType := none,
                   originalSource := "chatResult" }],
    createdAt := 1700000000000, lastUpdatedAt := 1700000000000 }

/-- A composer body carrying a fresh name and timestamps (C6 witness). -/
def c6Composer : ComposerInstance :=
  { composerId := "t1", name := some "Composer title", createdAt := .num 1800000000,
    lastUpdatedAt := .num 1900000000, messages := none, conversation := none,
    fullConversationHeadersOnly := none, latestSummary := none }

/-- A provisional conversation as created from a chat tab (C6 witness). -/
def c6Existing : TempConversation :=
  { id := "t1", title := "Tab title", summary := none,
    lastUpdatedAt := 1700000000000, createdAt := 1700000000000, bubbles := [] }

/-- A reconciliation state holding only `c6Existing` (C6 witness). -/
def c6State : ReconState :=
  { allConversationsMap := ⟨[("t1", c6Existing)]⟩,
    allBubblesMap := JsMap.empty, headerOrderMap := JsMap.empty }

/-- A whitespace-content global bubble row admitted by membership (C10
witness). -/
def c10Row : BubbleRow :=
  { key := "bubbleId:c1:b1",
    value := .ok { type := some (.num 1), text := some "   ", richText := none,
                   bubbleId := none } }

/-! ## Helper lemmas -/

/-- Re-normalizing an ISO string produced from instant `i` gives `i` back. -/
theorem safeParseTimestamp_instAsRaw (now i : Int) :
    safeParseTimestamp now (instAsRaw i) = i := rfl

theorem find?_upd_of_any {β : Type} (k : String) (v : β) :
    ∀ l : List (String × β), l.any (fun p => p.1 == k) = true →
      (l.map (fun p => if p.1 == k then (k, v) else p)).find? (fun p => p.1 == k) =
        some (k, v) := by
  intro l
  induction l with
  | nil => intro h; simp at h
  | cons q rest ih =>
    intro h
    cases hq : (q.1 == k) with
    | true =>
      simp only [List.map_cons]
      rw [List.find?_cons_of_pos _ (by simp [hq])]
      simp [hq]
    | false =>
      simp only [List.map_cons]
      rw [List.find?_cons_of_neg _ (by simp [hq])]
      apply ih
      simpa [hq] using h

theorem find?_append_single {β : Type} (k : String) (v : β) :
    ∀ l : List (String × β), l.any (fun p => p.1 == k) = false →
      (l ++ [(k, v)]).find? (fun p => p.1 == k) = some (k, v) := by
  intro l
  induction l with
  | nil => simp
  | cons q rest ih =>
    intro h
    simp only [List.any_cons, Bool.or_eq_false_iff] at h
    rw [List.cons_append, List.find?_cons_of_neg _ (by simp [h.1])]
    exact ih h.2

/-- `Map.get` after `Map.set` with the same key. -/
theorem JsMap.get?_set_self {β : Type} (m : JsMap β) (k : String) (v : β) :
    (m.set k v).get? k = some v := by
  unfold JsMap.set JsMap.has JsMap.get?
  split
  · rename_i h
    rw [find?_upd_of_any k v m.entries h]; rfl
  · rename_i h
    rw [find?_append_single k v m.entries (Bool.eq_false_iff.mpr h)]; rfl

/-- Every entry after a `Map.set` is the new value or an old entry. -/
theorem JsMap.mem_set_entries {β : Type} {m : JsMap β} {k : String} {v : β}
    {q : String × β} (h : q ∈ (m.set k v).entries) : q.2 = v ∨ q ∈ m.entries := by
  unfold JsMap.set at h
  split at h
  · obtain ⟨p, hp, he⟩ := List.mem_map.mp h
    split at he
    · left; rw [← he]
    · right; rw [← he]; exact hp
  · rcases List.mem_append.mp h with h1 | h1
    · right; exact h1
    · left; simp only [List.mem_singleton] at h1; rw [h1]

/-- A `Map.get` hit comes from an entry. -/
theorem JsMap.get?_mem {β : Type} {m : JsMap β} {k : String} {v : β}
    (h : m.get? k = some v) : ∃ p ∈ m.entries, p.2 = v := by
  unfold JsMap.get? at h
  obtain ⟨p, hp, hv⟩ := Option.map_eq_some'.mp h
  exact ⟨p, List.mem_of_find?_eq_some hp, hv⟩

/-- A fold step that preserves a predicate preserves it over the whole fold. -/
theorem foldl_preserves {α β : Type} (P : α → Prop) (f : α → β → α) :
    ∀ (l : List β) (a : α), (∀ x b, b ∈ l → P x → P (f x b)) → P a → P (l.foldl f a) := by
  intro l
  induction l with
  | nil => intro a _ ha; exact ha
  | cons b rest ih =>
    intro a hstep ha
    exact ih (f a b) (fun x c hc hx => hstep x c (List.mem_cons_of_mem _ hc) hx)
      (hstep a b (List.mem_cons_self _ _) ha)

/-- Folding over a list equals folding over its filtration when every
filtered-out element is a no-op for the fold. -/
theorem foldl_filter_noop {α β : Type} (f : α → β → α) (p : β → Bool)
    (hno : ∀ a b, p b = false → f a b = a) :
    ∀ (l : List β) (a : α), (l.filter p).foldl f a = l.foldl f a := by
  intro l
  induction l with
  | nil => intro a; rfl
  | cons b rest ih =>
    intro a
    cases hb : p b with
    | true => simp [List.filter_cons, hb, ih]
    | false => simp [List.filter_cons, hb, hno a b hb, ih]

/-- Every element of the final-assembly fold is either carried over from the
accumulator or the rendering of some map entry with non-empty messages. -/
theorem mem_foldl_buildStep (st : ReconState) :
    ∀ (l : List (String × TempConversation)) (acc : List ResponseConversation)
      (x : ResponseConversation), x ∈ l.foldl (buildStep st) acc →
      x ∈ acc ∨ ∃ p ∈ l,
        x = { id := p.2.id, name := p.2.title, summary := p.2.summary,
              messages := finalizeBubbles (st.headerOrderMap.get? p.2.id)
                ((st.allBubblesMap.get? p.2.id).getD []),
              createdAt := p.2.createdAt, lastUpdatedAt := p.2.lastUpdatedAt } ∧
        x.messages ≠ [] := by
  intro l
  induction l with
  | nil => intro acc x h; exact Or.inl h
  | cons q rest ih =>
    intro acc x h
    rcases ih _ x h with hacc | ⟨p, hp, hx, hne⟩
    · simp only [buildStep] at hacc
      split at hacc
      · rcases List.mem_append.mp hacc with h1 | h1
        · exact Or.inl h1
        · simp only [List.mem_singleton] at h1
          refine Or.inr ⟨q, List.mem_cons_self _ _, h1, ?_⟩
          rw [h1]
          rename_i hlen
          exact List.ne_nil_of_length_pos hlen
      · exact Or.inl hacc
    · exact Or.inr ⟨p, List.mem_cons_of_mem _ hp, hx, hne⟩

/-- Characterization of final-output membership: every output conversation
renders some accumulated map entry, with the consolidated message list, and
that list is non-empty. -/
theorem mem_buildFinal {st : ReconState} {x : ResponseConversation}
    (h : x ∈ buildFinal st) :
    ∃ p ∈ st.allConversationsMap.entries,
      x = { id := p.2.id, name := p.2.title, summary := p.2.summary,
            messages := finalizeBubbles (st.headerOrderMap.get? p.2.id)
              ((st.allBubblesMap.get? p.2.id).getD []),
            createdAt := p.2.createdAt, lastUpdatedAt := p.2.lastUpdatedAt } ∧
      x.messages ≠ [] := by
  unfold buildFinal at h
  rw [List.mem_insertionSort] at h
  rcases mem_foldl_buildStep st _ _ _ h with h0 | hres
  · exact absurd h0 (List.not_mem_nil x)
  · exact hres

/-- Every bubble matches its own dedup key. -/
theorem sameKey_self (b : ChatBubble) : sameKey b b = true := by
  simp [sameKey]

/-- Nothing surviving deduplication has a key-equal predecessor in `seen`. -/
theorem any_sameKey_false_of_mem_dedupKeep :
    ∀ (l seen : List ChatBubble) (x : ChatBubble), x ∈ dedupKeep seen l →
      seen.any (sameKey x) = false := by
  intro l
  induction l with
  | nil => intro seen x hx; simp [dedupKeep] at hx
  | cons b rest ih =>
    intro seen x hx
    rw [dedupKeep] at hx
    split at hx
    · have h2 := ih _ _ hx
      rw [List.any_append] at h2
      exact (Bool.or_eq_false_iff.mp h2).1
    · rcases List.mem_cons.mp hx with rfl | h1
      · rename_i hfalse
        exact Bool.eq_false_iff.mpr hfalse
      · have h2 := ih _ _ h1
        rw [List.any_append] at h2
        exact (Bool.or_eq_false_iff.mp h2).1

/-- Among staged duplicates, the survivor is the first staged occurrence of
its (role, content) key. -/
theorem find?_of_mem_dedupKeep :
    ∀ (l seen : List ChatBubble) (x : ChatBubble), x ∈ dedupKeep seen l →
      l.find? (sameKey x) = some x := by
  intro l
  induction l with
  | nil => intro seen x hx; simp [dedupKeep] at hx
  | cons b rest ih =>
    intro seen x hx
    rw [dedupKeep] at hx
    split at hx
    · have hxb : sameKey x b = false := by
        have h2 := any_sameKey_false_of_mem_dedupKeep _ _ _ hx
        rw [List.any_append] at h2
        simpa using (Bool.or_eq_false_iff.mp h2).2
      rw [List.find?_cons_of_neg _ (by simp [hxb])]
      exact ih _ _ hx
    · rcases List.mem_cons.mp hx with rfl | h1
      · rw [List.find?_cons_of_pos _ (sameKey_self x)]
      · have hxb : sameKey x b = false := by
          have h2 := any_sameKey_false_of_mem_dedupKeep _ _ _ h1
          rw [List.any_append] at h2
          simpa using (Bool.or_eq_false_iff.mp h2).2
        rw [List.find?_cons_of_neg _ (by simp [hxb])]
        exact ih _ _ h1

/-- Deduplication output is pairwise distinct on (role, content). -/
theorem pairwise_dedupKeep :
    ∀ (l seen : List ChatBubble), (dedupKeep seen l).Pairwise DistinctRC := by
  intro l
  induction l with
  | nil => intro seen; rw [dedupKeep]; exact List.Pairwise.nil
  | cons b rest ih =>
    intro seen
    rw [dedupKeep]
    split
    · exact ih _
    · refine List.Pairwise.cons ?_ (ih _)
      intro y hy
      have h2 := any_sameKey_false_of_mem_dedupKeep _ _ _ hy
      rw [List.any_append] at h2
      have hxb : sameKey y b = false := by
        simpa using (Bool.or_eq_false_iff.mp h2).2
      intro hcon
      rw [sameKey, hcon.1, hcon.2] at hxb
      simp at hxb

/-- The first index carrying `b`'s key in `seen ++ b :: r` is `seen`'s length
exactly when no element of `seen` shares `b`'s key. -/
theorem findIdx?_first :
    ∀ (seen : List ChatBubble) (b : ChatBubble) (r : List ChatBubble) (i : Nat),
      ((seen ++ b :: r).findIdx? (sameKey b) i = some (seen.length + i)) ↔
        seen.any (sameKey b) = false := by
  intro seen
  induction seen with
  | nil =>
    intro b r i
    simp [List.findIdx?_cons, sameKey_self]
  | cons s ss ih =>
    intro b r i
    rw [List.cons_append, List.findIdx?_cons]
    cases hs : sameKey b s with
    | true =>
      rw [if_pos (by simp [hs])]
      simp only [List.length_cons, List.any_cons, hs, Bool.true_or, Option.some_inj]
      constructor
      · intro hend; omega
      · intro hend; simp at hend
    | false =>
      rw [if_neg (by simp [hs])]
      have harith : (s :: ss).length + i = ss.length + (i + 1) := by
        simp; omega
      rw [harith, ih b r (i + 1)]
      simp [hs]

/-- Fidelity certificate for `dedupBubbles`: the accumulator recursion
computes exactly the source's filter-by-`findIndex` idiom. -/
theorem dedupKeep_eq_enumFrom :
    ∀ (l seen : List ChatBubble),
      dedupKeep seen l =
        ((l.enumFrom seen.length).filter
          (fun p => (seen ++ l).findIdx? (sameKey p.2) == some p.1)).map
            (fun p => p.2) := by
  intro l
  induction l with
  | nil => intro seen; rw [dedupKeep]; simp [List.enumFrom]
  | cons b rest ih =>
    intro seen
    have hassoc : seen ++ b :: rest = (seen ++ [b]) ++ rest := by simp
    have hcnd : ((seen ++ b :: rest).findIdx? (sameKey b) == some seen.length) =
        !(seen.any (sameKey b)) := by
      cases ha : seen.any (sameKey b) with
      | true =>
        simp only [Bool.not_true]
        apply beq_eq_false_iff_ne.mpr
        intro he
        have hfi := (findIdx?_first seen b rest 0).mp (by simpa using he)
        rw [ha] at hfi
        simp at hfi
      | false =>
        simp only [Bool.not_false]
        apply beq_iff_eq.mpr
        simpa using (findIdx?_first seen b rest 0).mpr ha
    rw [dedupKeep, List.enumFrom_cons, List.filter_cons]
    simp only [show ((seen.length, b).2 : ChatBubble) = b from rfl,
      show ((seen.length, b).1 : Nat) = seen.length from rfl]
    cases ha : seen.any (sameKey b) with
    | true =>
      rw [ha] at hcnd
      simp only [Bool.not_true] at hcnd
      rw [if_pos rfl]
      rw [if_neg (by rw [hcnd]; exact Bool.false_ne_true)]
      rw [ih (seen ++ [b]),
        show (seen ++ [b]).length = seen.length + 1 from by simp,
        show ((seen ++ [b]) ++ rest) = seen ++ b :: rest from hassoc.symm]
    | false =>
      rw [ha] at hcnd
      simp only [Bool.not_false] at hcnd
      rw [if_neg (by simp)]
      rw [if_pos hcnd]
      rw [List.map_cons]
      rw [ih (seen ++ [b]),
        show (seen ++ [b]).length = seen.length + 1 from by simp,
        show ((seen ++ [b]) ++ rest) = seen ++ b :: rest from hassoc.symm]

/-- `dedupBubbles` equals the literal index-based filter of the source. -/
theorem dedupBubbles_eq_filterFirstIdx (l : List ChatBubble) :
    dedupBubbles l = filterFirstIdx l := by
  rw [dedupBubbles, filterFirstIdx, dedupKeep_eq_enumFrom l []]
  simp [List.enum_eq_enumFrom]

/-- On WF input and an in-range clock, the normalizer's output is in the
`Date` range. -/
theorem safeParseTimestamp_bound (now : Int) (t : RawTimestamp)
    (ht : t.WF) (hn : now.natAbs ≤ maxDateMs.natAbs) :
    (safeParseTimestamp now t).natAbs ≤ maxDateMs.natAbs := by
  cases t with
  | null => exact hn
  | date o =>
    cases o with
    | none => exact hn
    | some v =>
      rw [safeParseTimestamp]
      split
      · assumption
      · exact hn
  | str ne p =>
    cases p with
    | none => exact hn
    | some v => exact ht
  | num n =>
    rw [safeParseTimestamp]
    split
    · assumption
    · exact hn

/-- `a || b` on raw timestamps preserves the host invariant. -/
theorem tsOr_WF {a b : RawTimestamp} (ha : a.WF) (hb : b.WF) : (tsOr a b).WF := by
  rw [tsOr]; split
  · exact ha
  · exact hb

/-- An in-range instant re-fed as an ISO string is WF. -/
theorem instAsRaw_WF {i : Int} (h : i.natAbs ≤ maxDateMs.natAbs) : (instAsRaw i).WF := h

/-- `null` is trivially WF. -/
theorem null_WF : RawTimestamp.null.WF := trivial

/-- Consolidated messages come from the deduplicated staging list. -/
theorem mem_finalizeBubbles {hm : Option (JsMap Nat)} {staged : List ChatBubble}
    {x : ChatBubble} (h : x ∈ finalizeBubbles hm staged) : x ∈ dedupBubbles staged := by
  cases hm with
  | none => exact h
  | some m =>
    rw [show finalizeBubbles (some m) staged =
      (if m.nonempty then
        (dedupBubbles staged).insertionSort (fun a b => bubbleCompare m a b ≤ 0)
      else dedupBubbles staged) from rfl] at h
    split at h
    · rwa [List.mem_insertionSort] at h
    · exact h

/-- Consolidated messages are pairwise distinct on (role, content). -/
theorem pairwise_finalizeBubbles (hm : Option (JsMap Nat)) (staged : List ChatBubble) :
    (finalizeBubbles hm staged).Pairwise DistinctRC := by
  have hd : (dedupBubbles staged).Pairwise DistinctRC := pairwise_dedupKeep staged []
  have hsymm : ∀ {x y : ChatBubble}, DistinctRC x y → DistinctRC y x :=
    fun h hc => h ⟨hc.1.symm, hc.2.symm⟩
  cases hm with
  | none => exact hd
  | some m =>
    rw [show finalizeBubbles (some m) staged =
      (if m.nonempty then
        (dedupBubbles staged).insertionSort (fun a b => bubbleCompare m a b ≤ 0)
      else dedupBubbles staged) from rfl]
    split
    · exact (List.Perm.pairwise_iff hsymm (List.perm_insertionSort _ _)).mpr hd
    · exact hd

/-- The bubble comparator's induced relation is total. -/
theorem bubbleCompare_total (hm : JsMap Nat) (a b : ChatBubble) :
    bubbleCompare hm a b ≤ 0 ∨ bubbleCompare hm b a ≤ 0 := by
  rw [bubbleCompare, bubbleCompare]
  cases bubbleHint hm a <;> cases bubbleHint hm b <;> simp <;> omega

/-- The bubble comparator's induced relation is transitive. -/
theorem bubbleCompare_trans (hm : JsMap Nat) (a b c : ChatBubble)
    (h1 : bubbleCompare hm a b ≤ 0) (h2 : bubbleCompare hm b c ≤ 0) :
    bubbleCompare hm a c ≤ 0 := by
  rw [bubbleCompare] at h1 h2 ⊢
  cases ha : bubbleHint hm a <;> cases hb : bubbleHint hm b <;>
    cases hc : bubbleHint hm c <;> rw [ha, hb] at h1 <;> rw [hb, hc] at h2 <;>
    simp_all <;> omega

/-- What `compare ≤ 0` says, in the spec's vocabulary: a hinted bubble never
follows an unhinted one, and hinted bubbles are ordered by hint value. -/
theorem bubbleCompare_le_zero_dest (hm : JsMap Nat) (a b : ChatBubble)
    (h : bubbleCompare hm a b ≤ 0) :
    ((bubbleHint hm b).isSome = true → (bubbleHint hm a).isSome = true) ∧
    (∀ ia ib, bubbleHint hm a = some ia → bubbleHint hm b = some ib → ia ≤ ib) := by
  rw [bubbleCompare] at h
  cases ha : bubbleHint hm a <;> cases hb : bubbleHint hm b <;>
    rw [ha, hb] at h <;> constructor <;> simp_all <;> omega

/-- With a non-empty hint map, consolidation sorts by the comparator. -/
theorem sorted_finalizeBubbles (hm : JsMap Nat) (staged : List ChatBubble)
    (hne : hm.nonempty = true) :
    (finalizeBubbles (some hm) staged).Pairwise
      (fun a b => bubbleCompare hm a b ≤ 0) := by
  rw [show finalizeBubbles (some hm) staged =
    (if hm.nonempty then
      (dedupBubbles staged).insertionSort (fun a b => bubbleCompare hm a b ≤ 0)
    else dedupBubbles staged) from rfl, if_pos hne]
  haveI : IsTotal ChatBubble (fun a b => bubbleCompare hm a b ≤ 0) :=
    ⟨fun a b => bubbleCompare_total hm a b⟩
  haveI : IsTrans ChatBubble (fun a b => bubbleCompare hm a b ≤ 0) :=
    ⟨fun a b c => bubbleCompare_trans hm a b c⟩
  exact List.sorted_insertionSort _ _

/-- Stability: the unhinted bubbles keep their deduplicated-staging order. -/
theorem unhinted_filter_finalizeBubbles (hm : JsMap Nat) (staged : List ChatBubble)
    (hne : hm.nonempty = true) :
    (finalizeBubbles (some hm) staged).filter (fun b => (bubbleHint hm b).isNone) =
      (dedupBubbles staged).filter (fun b => (bubbleHint hm b).isNone) := by
  rw [show finalizeBubbles (some hm) staged =
    (if hm.nonempty then
      (dedupBubbles staged).insertionSort (fun a b => bubbleCompare hm a b ≤ 0)
    else dedupBubbles staged) from rfl, if_pos hne]
  have hsub : List.Sublist
      ((dedupBubbles staged).filter (fun b => (bubbleHint hm b).isNone))
      ((dedupBubbles staged).insertionSort (fun a b => bubbleCompare hm a b ≤ 0)) := by
    apply List.sublist_insertionSort
    · apply List.pairwise_of_forall_mem_list
      intro a hamem b hbmem
      have hpa := (List.mem_filter.mp hamem).2
      have hpb := (List.mem_filter.mp hbmem).2
      rw [Option.isNone_iff_eq_none] at hpa hpb
      show bubbleCompare hm a b ≤ 0
      rw [bubbleCompare, hpa, hpb]
    · exact List.filter_sublist _
  have hsub2 : List.Sublist
      ((dedupBubbles staged).filter (fun b => (bubbleHint hm b).isNone))
      (((dedupBubbles staged).insertionSort
        (fun a b => bubbleCompare hm a b ≤ 0)).filter (fun b => (bubbleHint hm b).isNone)) := by
    have h2 := List.Sublist.filter (fun b => (bubbleHint hm b).isNone) hsub
    rw [List.filter_filter] at h2
    simpa only [Bool.and_self] using h2
  have hlen : (((dedupBubbles staged).insertionSort
      (fun a b => bubbleCompare hm a b ≤ 0)).filter
        (fun b => (bubbleHint hm b).isNone)).length =
      ((dedupBubbles staged).filter (fun b => (bubbleHint hm b).isNone)).length :=
    ((List.perm_insertionSort _ _).filter _).length_eq
  exact (hsub2.eq_of_length hlen.symm).symm

/-- A parsed global-store row whose resolved content is whitespace-only
leaves the whole reconciliation state untouched. -/
theorem processGlobalBubbleRow_blank (now : Int) (meta : List ComposerMetaEntry)
    (ids : List String) (st : ReconState) (row : BubbleRow) (bd : BubbleData)
    (hparse : row.value = .ok bd)
    (hws : jsTrim (jsOrDefault bd.text bd.richText) = "") :
    processGlobalBubbleRow now meta ids st row = st := by
  simp only [processGlobalBubbleRow, hparse]
  have hempty : (jsTrim (jsOrDefault bd.text bd.richText) == "") = true := by
    rw [hws]; rfl
  split
  · split
    · simp [hempty]
    · rfl
  · rfl

/-- A global-store row whose key embeds a composer id outside the
workspace-membership list is a no-op for the scan. -/
theorem processGlobalBubbleRow_foreign (now : Int) (meta : List ComposerMetaEntry)
    (ids : List String) (st : ReconState) (row : BubbleRow)
    (h : rowFromWorkspace ids row = false) :
    processGlobalBubbleRow now meta ids st row = st := by
  rw [rowFromWorkspace] at h
  simp only [Bool.or_eq_false_iff, decide_eq_false_iff_not, Nat.not_le] at h
  cases hval : row.value with
  | error e => simp [processGlobalBubbleRow, hval]
  | ok bd =>
    simp only [processGlobalBubbleRow, hval]
    have h2 : ids.contains ((splitChar ':' row.key)[1]?.getD "") = false := by
      rw [← List.getD_eq_getElem?_getD]; exact h.2
    rw [if_pos h.1]
    rw [if_neg (by simpa using h2)]

/-- Every composer body produced by the batch parse is an `ok` row value. -/
theorem parseComposerRows_ok_mem :
    ∀ (rows : List (String × Except Unit ComposerInstance)) (cs : List ComposerInstance),
      parseComposerRows rows = .ok cs → ∀ c ∈ cs, ∃ k, (k, Except.ok c) ∈ rows := by
  intro rows
  induction rows with
  | nil =>
    intro cs h c hc
    rw [parseComposerRows] at h
    injection h with h1
    rw [← h1] at hc
    simp at hc
  | cons q rest ih =>
    intro cs h c hc
    obtain ⟨k, v⟩ := q
    cases v with
    | error e => rw [parseComposerRows] at h; cases h
    | ok ci =>
      rw [parseComposerRows] at h
      cases hrest : parseComposerRows rest with
      | error e => rw [hrest] at h; cases h
      | ok cs' =>
        rw [hrest] at h
        injection h with h1
        rw [← h1] at hc
        rcases List.mem_cons.mp hc with rfl | h2
        · exact ⟨k, List.mem_cons_self _ _⟩
        · obtain ⟨k', hk'⟩ := ih cs' hrest c h2
          exact ⟨k', List.mem_cons_of_mem _ hk'⟩

/-- Setting one key preserves a property that the new value and all old
values hold. -/
theorem jsmap_set_forall {β : Type} (P : β → Prop) {m : JsMap β} {k : String} {v : β}
    (hm : ∀ p ∈ m.entries, P p.2) (hv : P v) :
    ∀ p ∈ (m.set k v).entries, P p.2 := by
  intro p hp
  rcases JsMap.mem_set_entries hp with h | h
  · rw [h]; exact hv
  · exact hm p h

/-- The initial state is trivially bounded. -/
theorem TsBounded_init : ReconState.init.TsBounded := by
  intro p hp
  simp [ReconState.init, JsMap.empty] at hp

/-- Phase-1 steps keep all conversation timestamps in range. -/
theorem processTab_TsBounded {now : Int} {st : ReconState} {tab : RawTab}
    (hst : st.TsBounded) (htab : tab.lastSendTime.WF)
    (hn : now.natAbs ≤ maxDateMs.natAbs) :
    (processTab now st tab).TsBounded := by
  intro p hp
  simp only [processTab] at hp
  refine jsmap_set_forall
    (fun tc => tc.createdAt.natAbs ≤ maxDateMs.natAbs ∧
      tc.lastUpdatedAt.natAbs ≤ maxDateMs.natAbs)
    (fun q hq => hst q hq)
    ⟨safeParseTimestamp_bound now _ htab hn, safeParseTimestamp_bound now _ htab hn⟩ p hp

/-- Phase-2 steps keep all conversation timestamps in range. -/
theorem processComposer_TsBounded {now : Int} {st : ReconState} {c : ComposerInstance}
    (hst : st.TsBounded) (hc : c.WF) (hn : now.natAbs ≤ maxDateMs.natAbs) :
    (processComposer now st c).TsBounded := by
  have hget : ∀ (e : TempConversation), st.allConversationsMap.get? c.composerId = some e →
      e.createdAt.natAbs ≤ maxDateMs.natAbs ∧ e.lastUpdatedAt.natAbs ≤ maxDateMs.natAbs := by
    intro e he
    obtain ⟨q, hq, hq2⟩ := JsMap.get?_mem he
    rw [← hq2]; exact hst q hq
  intro p hp
  simp only [processComposer] at hp
  have hmid : (match c.fullConversationHeadersOnly with
      | some hs =>
        if hs.length != 0 then
          { st with headerOrderMap := st.headerOrderMap.set c.composerId (buildOrderMap hs) }
        else st
      | none => st).allConversationsMap = st.allConversationsMap := by
    split
    · split
      · rfl
      · rfl
    · rfl
  rw [hmid] at hp
  split at hp
  · rename_i e heq
    dsimp only at hp
    rcases JsMap.mem_set_entries hp with h | h
    · rw [h]
      obtain ⟨hce, hle⟩ := hget e heq
      exact ⟨safeParseTimestamp_bound now _ (tsOr_WF hc.1 (instAsRaw_WF hce)) hn,
        safeParseTimestamp_bound now _
          (tsOr_WF hc.2 (tsOr_WF hc.1 (instAsRaw_WF hle))) hn⟩
    · exact hst p h
  · dsimp only at hp
    rcases JsMap.mem_set_entries hp with h | h
    · rw [h]
      exact ⟨safeParseTimestamp_bound now _ (tsOr_WF hc.1 hc.2) hn,
        safeParseTimestamp_bound now _ (tsOr_WF hc.2 hc.1) hn⟩
    · exact hst p h

/-- Phase-3 steps keep all conversation timestamps in range. -/
theorem processGlobalBubbleRow_TsBounded {now : Int} {meta : List ComposerMetaEntry}
    {ids : List String} {st : ReconState} {row : BubbleRow}
    (hst : st.TsBounded) (hmeta : ∀ e ∈ meta, e.WF)
    (hn : now.natAbs ≤ maxDateMs.natAbs) :
    (processGlobalBubbleRow now meta ids st row).TsBounded := by
  cases hval : row.value with
  | error e => simpa [processGlobalBubbleRow, hval] using hst
  | ok bd =>
    intro p hp
    simp only [processGlobalBubbleRow, hval] at hp
    split at hp
    · split at hp
      · split at hp
        · split at hp
          · -- owning conversation absent: created from composer metadata
            dsimp only at hp
            rcases JsMap.mem_set_entries hp with h | h
            · rw [h]
              cases hfind : meta.find?
                  (fun c => c.composerId == ((splitChar ':' row.key).getD 1 "")) with
              | none =>
                exact ⟨safeParseTimestamp_bound now _ (tsOr_WF null_WF null_WF) hn,
                  safeParseTimestamp_bound now _ (tsOr_WF null_WF null_WF) hn⟩
              | some m =>
                have hmWF := hmeta m (List.mem_of_find?_eq_some hfind)
                exact ⟨safeParseTimestamp_bound now _ (tsOr_WF hmWF.1 null_WF) hn,
                  safeParseTimestamp_bound now _ (tsOr_WF hmWF.2 null_WF) hn⟩
            · exact hst p h
          · -- owning conversation exists: possible lastUpdatedAt refresh
            rename_i conv heq
            split at hp
            · rename_i m hfind
              split at hp
              · dsimp only at hp
                rcases JsMap.mem_set_entries hp with h | h
                · rw [h]
                  obtain ⟨q, hq, hq2⟩ := JsMap.get?_mem heq
                  have hcb := hst q hq
                  rw [hq2] at hcb
                  have hmWF := hmeta m (List.mem_of_find?_eq_some hfind)
                  exact ⟨hcb.1, safeParseTimestamp_bound now _ hmWF.2 hn⟩
                · exact hst p h
              · exact hst p hp
            · exact hst p hp
        · exact hst p hp
      · exact hst p hp
    · exact hst p hp

/-- The composer phase preserves bounded timestamps. -/
theorem composerPhase_TsBounded {env : Env} {blob : ComposerMetaBlob} {st st' : ReconState}
    (h : composerPhase env blob st = .ok st') (hst : st.TsBounded)
    (hrowsWF : ∀ k ci, (k, Except.ok ci) ∈ env.composerRows → ci.WF)
    (hn : env.now.natAbs ≤ maxDateMs.natAbs) : st'.TsBounded := by
  simp only [composerPhase] at h
  split at h
  · split at h
    · cases h
    · split at h
      · cases h
      · rename_i parsed hparse
        injection h with h1
        rw [← h1]
        refine foldl_preserves ReconState.TsBounded (processComposer env.now) parsed st ?_ hst
        intro x b hb hx
        obtain ⟨k, hk⟩ := parseComposerRows_ok_mem _ _ hparse b hb
        exact processComposer_TsBounded hx (hrowsWF k b (List.mem_of_mem_filter hk)) hn
  · injection h with h1
    rw [← h1]
    exact hst

/-- The bubble-scan phase preserves bounded timestamps. -/
theorem globalBubblePhase_TsBounded {env : Env} {blob : ComposerMetaBlob}
    {st1 st' : ReconState} (h : globalBubblePhase env blob st1 = .ok st')
    (hst : st1.TsBounded) (hmeta : ∀ e ∈ blob.allComposers, e.WF)
    (hn : env.now.natAbs ≤ maxDateMs.natAbs) : st'.TsBounded := by
  rw [globalBubblePhase] at h
  split at h
  · cases h
  · injection h with h1
    rw [← h1]
    refine foldl_preserves ReconState.TsBounded _ env.bubbleRows st1 ?_ hst
    intro x b hb hx
    exact processGlobalBubbleRow_TsBounded hx hmeta hn

/-- The whole global section preserves bounded timestamps. -/
theorem globalSection_TsBounded {env : Env} {blob : ComposerMetaBlob}
    {st st' : ReconState} (h : globalSection env blob st = .ok st')
    (hst : st.TsBounded) (hmeta : ∀ e ∈ blob.allComposers, e.WF)
    (hrowsWF : ∀ k ci, (k, Except.ok ci) ∈ env.composerRows → ci.WF)
    (hn : env.now.natAbs ≤ maxDateMs.natAbs) : st'.TsBounded := by
  rw [globalSection] at h
  split at h
  · cases h
  · rename_i st1 hphase
    exact globalBubblePhase_TsBounded h
      (composerPhase_TsBounded hphase hst hrowsWF hn) hmeta hn

/-- Every successful run returns `[]` or the final assembly of a state that
is timestamp-bounded whenever the environment is WF. -/
theorem runFetch_ok_shape {env : Env} {l : List ResponseConversation}
    (h : runFetch env = .ok l) :
    l = [] ∨ ∃ st, l = buildFinal st ∧ (env.WF → st.TsBounded) := by
  rw [runFetch] at h
  split at h
  · injection h with h1
    exact Or.inl h1.symm
  · split at h
    · cases h
    · split at h
      · cases h
      · rename_i chatBlob hchat
        split at h
        · cases h
        · rename_i metaBlob hmetaq
          split at h
          · cases h
          · rename_i st1 hst1
            have hst1B : env.WF → st1.TsBounded := by
              intro hwf
              rw [processChatBlob.eq_def] at hst1
              split at hst1
              · injection hst1 with h2
                rw [← h2]
                exact TsBounded_init
              · cases hst1
              · rename_i cd
                injection hst1 with h2
                rw [← h2]
                refine foldl_preserves ReconState.TsBounded _ _ _ ?_ TsBounded_init
                intro x b hb hx
                exact processTab_TsBounded hx (hwf.2.1 cd hchat b hb) hwf.1
            split at h
            · injection h with h1
              exact Or.inr ⟨st1, h1.symm, hst1B⟩
            · split at h
              · cases h
              · injection h with h1
                exact Or.inr ⟨st1, h1.symm, hst1B⟩
            · rename_i blob
              split at h
              · split at h
                · cases h
                · rename_i st2 hsec
                  injection h with h1
                  refine Or.inr ⟨st2, h1.symm, fun hwf => ?_⟩
                  exact globalSection_TsBounded hsec (hst1B hwf)
                    (hwf.2.2.1 blob hmetaq) hwf.2.2.2 hwf.1
              · injection h with h1
                exact Or.inr ⟨st1, h1.symm, hst1B⟩

/-! ## The claims -/

/-- C2, counterexample: the claim says a numeric timestamp of exactly
100,000,000,000 is interpreted as milliseconds; the code's branch is
`timestamp > 100000000000`, so at exactly 100,000,000,000 it multiplies by
1000 (the seconds interpretation) — the resulting instant is
100,000,000,000,000 ms, not 100,000,000,000 ms. -/
theorem c2_timestamp_boundary_counterexample :
    safeParseTimestamp 0 (RawTimestamp.num 100000000000) = 100000000000 * 1000 ∧
    safeParseTimestamp 0 (RawTimestamp.num 100000000000) ≠ 100000000000 := by
  constructor
  · decide
  · decide

/-- C2, amended: a numeric timestamp of exactly 100,000,000,000 is treated
as seconds (multiplied by 1000 before constructing the instant), as is
99,999,999,999; only values strictly greater than 100,000,000,000 are
treated as milliseconds. -/
theorem c2_timestamp_boundary_amended (now : Int) :
    safeParseTimestamp now (RawTimestamp.num 100000000000) = 100000000000 * 1000 ∧
    safeParseTimestamp now (RawTimestamp.num 99999999999) = 99999999999 * 1000 ∧
    (∀ n : Int, 100000000000 < n → n.natAbs ≤ maxDateMs.natAbs →
      safeParseTimestamp now (RawTimestamp.num n) = n) := by
  refine ⟨?_, ?_, ?_⟩
  · rw [safeParseTimestamp, if_pos (by decide)]
    decide
  · rw [safeParseTimestamp, if_pos (by decide)]
    decide
  · intro n h1 h2
    have hms : msOfNum n = n := if_pos h1
    rw [safeParseTimestamp, hms, if_pos h2]

/-- C2 witness: a value strictly above the boundary is kept as
milliseconds. -/
theorem c2_timestamp_boundary_amended_witness :
    safeParseTimestamp 0 (RawTimestamp.num 200000000000) = 200000000000 :=
  (c2_timestamp_boundary_amended 0).2.2 200000000000 (by decide) (by decide)

/-- C9, counterexample: the normalizer consults the ambient clock on the
fallback path, so normalizing the very same raw value (here `null`) twice,
at clock instants 0 and 1, yields two different instants — "normalizing the
same raw timestamp twice yields the same instant" fails as a universal
statement. -/
theorem c9_idempotence_counterexample :
    safeParseTimestamp 0 RawTimestamp.null = 0 ∧
    safeParseTimestamp 1 RawTimestamp.null = 1 ∧ (0 : Int) ≠ 1 :=
  ⟨rfl, rfl, by decide⟩

/-- C9, amended: for every raw timestamp that does not take the
current-clock fallback (a valid `Date`, a parseable string, an in-range
number), the normalized instant is independent of the clock — so repeated
normalization agrees even across different times; and re-normalizing any
output of the normalizer yields the same instant back. -/
theorem c9_idempotence_amended :
    (∀ (t : RawTimestamp) (now now' : Int), usesClockFallback t = false →
      safeParseTimestamp now t = safeParseTimestamp now' t) ∧
    (∀ (t : RawTimestamp) (now now' : Int),
      safeParseTimestamp now' (instAsRaw (safeParseTimestamp now t)) =
        safeParseTimestamp now t) := by
  constructor
  · intro t now now' hf
    cases t with
    | null => simp [usesClockFallback] at hf
    | date o =>
      cases o with
      | none => simp [usesClockFallback] at hf
      | some v =>
        rw [usesClockFallback] at hf
        rw [safeParseTimestamp, safeParseTimestamp]
        split at hf
        · rename_i hb
          rw [if_pos hb, if_pos hb]
        · cases hf
    | str ne p =>
      cases p with
      | none => simp [usesClockFallback] at hf
      | some v => rfl
    | num n =>
      rw [usesClockFallback] at hf
      rw [safeParseTimestamp, safeParseTimestamp]
      split at hf
      · rename_i hb
        rw [if_pos hb, if_pos hb]
      · cases hf
  · intro t now now'
    exact safeParseTimestamp_instAsRaw now' _

/-- C9 witness: an in-range number normalizes identically under two
different clocks. -/
theorem c9_idempotence_amended_witness :
    safeParseTimestamp 0 (RawTimestamp.num 5) = safeParseTimestamp 99 (RawTimestamp.num 5) :=
  c9_idempotence_amended.1 (RawTimestamp.num 5) 0 99 (by decide)

/-- C10: an admitted global-store record (key embeds a member composer id)
whose text content resolves to whitespace-only leaves the reconciliation
state entirely unchanged — no message staged, no conversation created, no
`lastUpdatedAt` refresh. -/
theorem c10_admitted_blank_bubble_frame (now : Int)
    (allComposers : List ComposerMetaEntry) (ids : List String) (st : ReconState)
    (row : BubbleRow) (bd : BubbleData)
    (hparse : row.value = .ok bd)
    (hkey : (splitChar ':' row.key).length > 1)
    (hmem : ids.contains ((splitChar ':' row.key).getD 1 "") = true)
    (hws : jsTrim (jsOrDefault bd.text bd.richText) = "") :
    processGlobalBubbleRow now allComposers ids st row = st :=
  processGlobalBubbleRow_blank now allComposers ids st row bd hparse hws

/-- C10 witness: a concrete admitted whitespace-content row is a no-op. -/
theorem c10_admitted_blank_bubble_frame_witness :
    processGlobalBubbleRow 0 [] ["c1"] ReconState.init c10Row = ReconState.init :=
  c10_admitted_blank_bubble_frame 0 [] ["c1"] ReconState.init c10Row
    { type := some (.num 1), text := some "   ", richText := none, bubbleId := none }
    rfl (by decide) (by decide) (by decide)

/-- C7: a raw record whose resolved content is empty or whitespace-only
produces no canonical message, in each of the three sources (legacy chat
tab, composer message, global bubble — where the scan step leaves the state
unchanged), and every conversation in the final output has at least one
message. -/
theorem c7_empty_content_drop :
    (∀ b : RawBubble, jsTrim (jsOrDefault b.content b.text) = "" →
      normalizeChatBubble b = none) ∧
    (∀ m : ComposerMessage, jsTrim (jsOrDefault m.content m.text) = "" →
      normalizeComposerMessage m = none) ∧
    (∀ (now : Int) (meta : List ComposerMetaEntry) (ids : List String)
      (st : ReconState) (row : BubbleRow) (bd : BubbleData), row.value = .ok bd →
      jsTrim (jsOrDefault bd.text bd.richText) = "" →
      processGlobalBubbleRow now meta ids st row = st) ∧
    (∀ env : Env, ∀ conv ∈ fetchConversationsForWorkspace env, conv.messages ≠ []) := by
  refine ⟨?_, ?_, ?_, ?_⟩
  · intro b hws
    simp only [normalizeChatBubble]
    have hfalse : (jsTrim (jsOrDefault b.content b.text) == "") = true := by
      rw [hws]; rfl
    simp [hfalse]
  · intro m hws
    simp only [normalizeComposerMessage]
    have hfalse : (jsTrim (jsOrDefault m.content m.text) == "") = true := by
      rw [hws]; rfl
    simp [hfalse]
  · intro now meta ids st row bd hparse hws
    exact processGlobalBubbleRow_blank now meta ids st row bd hparse hws
  · intro env conv hmem
    rw [fetchConversationsForWorkspace] at hmem
    split at hmem
    · rename_i l hrun
      rcases runFetch_ok_shape hrun with rfl | ⟨st, rfl, _⟩
      · exact absurd hmem (List.not_mem_nil conv)
      · obtain ⟨p, hp, hconv, hne⟩ := mem_buildFinal hmem
        exact hne
    · exact absurd hmem (List.not_mem_nil conv)

/-- C7 witness: a concrete whitespace-only chat-tab bubble is dropped. -/
theorem c7_empty_content_drop_witness :
    normalizeChatBubble { role := some "user", type := none, content := some "  ",
                          text := none, id := none, bubbleId := none } = none :=
  c7_empty_content_drop.1 _ (by decide)

/-- C5: in every conversation of the final output, no two messages agree on
both role and content; and every message surviving consolidation is the
first-staged occurrence of its (role, content) pair. -/
theorem c5_dedup_invariant :
    (∀ env : Env, ∀ conv ∈ fetchConversationsForWorkspace env,
      conv.messages.Pairwise DistinctRC) ∧
    (∀ (hm : Option (JsMap Nat)) (staged : List ChatBubble),
      ∀ x ∈ finalizeBubbles hm staged, staged.find? (sameKey x) = some x) := by
  constructor
  · intro env conv hmem
    rw [fetchConversationsForWorkspace] at hmem
    split at hmem
    · rename_i l hrun
      rcases runFetch_ok_shape hrun with rfl | ⟨st, rfl, _⟩
      · exact absurd hmem (List.not_mem_nil conv)
      · obtain ⟨p, hp, hconv, hne⟩ := mem_buildFinal hmem
        rw [hconv]
        exact pairwise_finalizeBubbles _ _
    · exact absurd hmem (List.not_mem_nil conv)
  · intro hm staged x hx
    exact find?_of_mem_dedupKeep staged [] x (mem_finalizeBubbles hx)

/-- C5 witness: the scenario-1 output conversation has pairwise-distinct
messages. -/
theorem c5_dedup_invariant_witness :
    scenario1Conv.messages.Pairwise DistinctRC :=
  c5_dedup_invariant.1 scenario1Env scenario1Conv (by decide)

/-- C8: the timestamp normalizer is total by construction (it is a plain
function of its input and the ambient clock; the `catch` path is the `now`
fallback), and on host-WF inputs its output instant is always within the
ISO-renderable `Date` range; consequently every output conversation's
`createdAt` and `lastUpdatedAt` are well-formed instants. -/
theorem c8_normalizer_totality :
    (∀ (now : Int) (t : RawTimestamp), t.WF → now.natAbs ≤ maxDateMs.natAbs →
      (safeParseTimestamp now t).natAbs ≤ maxDateMs.natAbs) ∧
    (∀ env : Env, env.WF → ∀ conv ∈ fetchConversationsForWorkspace env,
      conv.createdAt.natAbs ≤ maxDateMs.natAbs ∧
      conv.lastUpdatedAt.natAbs ≤ maxDateMs.natAbs) := by
  constructor
  · exact fun now t ht hn => safeParseTimestamp_bound now t ht hn
  · intro env hwf conv hmem
    rw [fetchConversationsForWorkspace] at hmem
    split at hmem
    · rename_i l hrun
      rcases runFetch_ok_shape hrun with rfl | ⟨st, rfl, hB⟩
      · exact absurd hmem (List.not_mem_nil conv)
      · obtain ⟨p, hp, hconv, _⟩ := mem_buildFinal hmem
        have hb := hB hwf p hp
        rw [hconv]
        exact ⟨hb.1, hb.2⟩
    · exact absurd hmem (List.not_mem_nil conv)

/-- C8 witness: a concrete in-range normalization is in range. -/
theorem c8_normalizer_totality_witness :
    (safeParseTimestamp 0 (RawTimestamp.num 5)).natAbs ≤ maxDateMs.natAbs :=
  c8_normalizer_totality.1 0 (RawTimestamp.num 5) trivial (by decide)

/-- C4: with a non-empty order-hint map, after deduplication every hinted
message precedes every unhinted one, hinted messages are ordered by
non-decreasing hint value, unhinted messages keep their relative
deduplicated-staging order; and concretely, messages A (no hint), B (hint
0), C (hint 1) staged as [A, B, C] end as [B, C, A]. -/
theorem c4_ordering_with_hints :
    (∀ (hm : JsMap Nat) (staged : List ChatBubble), hm.nonempty = true →
      ((finalizeBubbles (some hm) staged).Pairwise (fun a b =>
        ((bubbleHint hm b).isSome = true → (bubbleHint hm a).isSome = true) ∧
        (∀ ia ib, bubbleHint hm a = some ia → bubbleHint hm b = some ib → ia ≤ ib)) ∧
      (finalizeBubbles (some hm) staged).filter (fun b => (bubbleHint hm b).isNone) =
        (dedupBubbles staged).filter (fun b => (bubbleHint hm b).isNone))) ∧
    finalizeBubbles (some hintMapBC) [msgA, msgB, msgC] = [msgB, msgC, msgA] := by
  constructor
  · intro hm staged hne
    constructor
    · exact (sorted_finalizeBubbles hm staged hne).imp
        (fun h => bubbleCompare_le_zero_dest hm _ _ h)
    · exact unhinted_filter_finalizeBubbles hm staged hne
  · decide

/-- C4 witness: the unhinted messages of the concrete scenario keep their
staging order. -/
theorem c4_ordering_with_hints_witness :
    (finalizeBubbles (some hintMapBC) [msgA, msgB, msgC]).filter
      (fun b => (bubbleHint hintMapBC b).isNone) =
      (dedupBubbles [msgA, msgB, msgC]).filter
        (fun b => (bubbleHint hintMapBC b).isNone) :=
  (c4_ordering_with_hints.1 hintMapBC [msgA, msgB, msgC] (by decide)).2

/-- C6: when a composer body's id matches an existing provisional
conversation, the merge overwrites each metadata field only when the
composer carries (truthy) data for it: title takes the composer name when
present, else is unchanged; summary takes the composer summary when
present, else is unchanged; `lastUpdatedAt` takes the normalized composer
`lastUpdatedAt`-or-`createdAt` when either is present, else is unchanged;
`createdAt` takes the normalized composer `createdAt` when present, else is
unchanged.  In particular, on a title conflict the composer name wins. -/
theorem c6_merge_precedence (now : Int) (st : ReconState) (c : ComposerInstance)
    (E : TempConversation)
    (hE : st.allConversationsMap.get? c.composerId = some E) :
    ∃ E', (processComposer now st c).allConversationsMap.get? c.composerId = some E' ∧
      E'.id = E.id ∧ E'.bubbles = E.bubbles ∧
      E'.title = (if jsTruthy c.name then c.name.getD "" else E.title) ∧
      E'.summary = (if jsTruthy c.latestSummary then c.latestSummary else E.summary) ∧
      E'.lastUpdatedAt =
        (if c.lastUpdatedAt.truthy then safeParseTimestamp now c.lastUpdatedAt
         else if c.createdAt.truthy then safeParseTimestamp now c.createdAt
         else E.lastUpdatedAt) ∧
      E'.createdAt =
        (if c.createdAt.truthy then safeParseTimestamp now c.createdAt
         else E.createdAt) := by
  refine ⟨{ E with
      title := jsOrStr c.name E.title,
      summary := jsOr2 c.latestSummary E.summary,
      lastUpdatedAt := safeParseTimestamp now
        (tsOr c.lastUpdatedAt (tsOr c.createdAt (instAsRaw E.lastUpdatedAt))),
      createdAt := safeParseTimestamp now
        (tsOr c.createdAt (instAsRaw E.createdAt)) },
    ?_, rfl, rfl, rfl, rfl, ?_, ?_⟩
  · simp only [processComposer]
    have hmid : (match c.fullConversationHeadersOnly with
        | some hs =>
          if hs.length != 0 then
            { st with headerOrderMap := st.headerOrderMap.set c.composerId (buildOrderMap hs) }
          else st
        | none => st).allConversationsMap = st.allConversationsMap := by
      split
      · split
        · rfl
        · rfl
      · rfl
    rw [hmid, hE]
    exact JsMap.get?_set_self _ _ _
  · by_cases h1 : c.lastUpdatedAt.truthy = true
    · simp [tsOr, h1]
    · by_cases h2 : c.createdAt.truthy = true
      · simp [tsOr, h1, h2]
      · simp [tsOr, h1, h2, instAsRaw, safeParseTimestamp]
  · by_cases h2 : c.createdAt.truthy = true
    · simp [tsOr, h2]
    · simp [tsOr, h2, instAsRaw, safeParseTimestamp]

/-- C6 witness: concrete merge where the composer carries a new title and
timestamps. -/
theorem c6_merge_precedence_witness :
    ∃ E', (processComposer 0 c6State c6Composer).allConversationsMap.get?
        c6Composer.composerId = some E' ∧
      E'.id = c6Existing.id ∧ E'.bubbles = c6Existing.bubbles ∧
      E'.title = (if jsTruthy c6Composer.name then c6Composer.name.getD ""
        else c6Existing.title) ∧
      E'.summary = (if jsTruthy c6Composer.latestSummary then c6Composer.latestSummary
        else c6Existing.summary) ∧
      E'.lastUpdatedAt =
        (if c6Composer.lastUpdatedAt.truthy then safeParseTimestamp 0 c6Composer.lastUpdatedAt
         else if c6Composer.createdAt.truthy then safeParseTimestamp 0 c6Composer.createdAt
         else c6Existing.lastUpdatedAt) ∧
      E'.createdAt =
        (if c6Composer.createdAt.truthy then safeParseTimestamp 0 c6Composer.createdAt
         else c6Existing.createdAt) :=
  c6_merge_precedence 0 c6State c6Composer c6Existing (by decide)

/-- A failing global-store query (or composer-body parse) throws out of the
global section regardless of the incoming state. -/
theorem globalSection_fails {env : Env} {blob : ComposerMetaBlob}
    (h : GlobalQueryFails env blob) (st : ReconState) :
    ∃ e, globalSection env blob st = .error e := by
  rw [globalSection]
  rcases h with ⟨hne, hthrow⟩ | ⟨hne, hnothrow, e, hparse⟩ | hbub
  · have hcp : composerPhase env blob st = .error () := by
      simp only [composerPhase]
      rw [if_pos (by rw [List.length_map]; exact List.length_pos.mpr hne), if_pos hthrow]
    rw [hcp]
    exact ⟨(), rfl⟩
  · have hcp : composerPhase env blob st = .error e := by
      simp only [composerPhase]
      rw [if_pos (by rw [List.length_map]; exact List.length_pos.mpr hne),
        if_neg (by simp [hnothrow]), hparse]
    rw [hcp]
    exact ⟨e, rfl⟩
  · cases hcp : composerPhase env blob st with
    | error e => exact ⟨e, rfl⟩
    | ok st1 =>
      show ∃ e, globalBubblePhase env blob st1 = Except.error e
      rw [globalBubblePhase, if_pos hbub]
      exact ⟨(), rfl⟩

/-- C3, counterexample: in `c3Env` the global store exists but OPENING it
throws, and the claim then demands an empty result — yet the fetch still
returns the workspace's one chat-tab conversation, because the source
catches the global-open failure locally and continues. -/
theorem c3_failure_semantics_counterexample :
    c3Env.globalOpenThrows = true ∧ c3Env.globalDbExists = true ∧
    (fetchConversationsForWorkspace c3Env).length = 1 :=
  ⟨rfl, rfl, by decide⟩

/-- C3, amended: the fetch returns an empty list when the workspace store
file is absent, when opening or querying the workspace store throws, when a
top-level blob is malformed, or — once the global store was actually
opened — when a global-store query or the composer-body parse throws.  (A
failure opening the global store itself is caught locally and reconciliation
continues with workspace-local data; and no exception ever surfaces — the
fetch is a total function.) -/
theorem c3_failure_semantics_amended (env : Env) (h : FetchFails env) :
    fetchConversationsForWorkspace env = [] := by
  rcases h with h | h | h | h | h | ⟨hg, h⟩ | ⟨hg, blob, hmq, hgq⟩
  · simp [fetchConversationsForWorkspace, runFetch, h]
  · cases hd : env.wsDbExists <;>
      simp [fetchConversationsForWorkspace, runFetch, hd, h]
  · cases hd : env.wsDbExists <;> cases hw : env.wsOpenThrows <;>
      simp [fetchConversationsForWorkspace, runFetch, hd, hw, h]
  · cases hd : env.wsDbExists <;> cases hw : env.wsOpenThrows <;>
      cases hc : env.chatQuery <;>
      simp [fetchConversationsForWorkspace, runFetch, hd, hw, hc, h]
  · cases hd : env.wsDbExists <;> cases hw : env.wsOpenThrows <;>
      cases hm : env.composerMetaQuery <;>
      simp [fetchConversationsForWorkspace, runFetch, processChatBlob, hd, hw, hm, h]
  · have hg' : (env.globalDbExists && !env.globalOpenThrows) = true := hg
    cases hd : env.wsDbExists
    · simp [fetchConversationsForWorkspace, runFetch, hd]
    · cases hw : env.wsOpenThrows
      · cases hc : env.chatQuery with
        | error e => simp [fetchConversationsForWorkspace, runFetch, hd, hw, hc]
        | ok cb =>
          cases cb <;>
            simp [fetchConversationsForWorkspace, runFetch, processChatBlob,
              hd, hw, hc, h, hg']
      · simp [fetchConversationsForWorkspace, runFetch, hd, hw]
  · have hg' : (env.globalDbExists && !env.globalOpenThrows) = true := hg
    cases hd : env.wsDbExists
    · simp [fetchConversationsForWorkspace, runFetch, hd]
    · cases hw : env.wsOpenThrows
      · cases hc : env.chatQuery with
        | error e => simp [fetchConversationsForWorkspace, runFetch, hd, hw, hc]
        | ok cb =>
          cases cb with
          | absent =>
            obtain ⟨e, hsec⟩ := globalSection_fails hgq ReconState.init
            simp [fetchConversationsForWorkspace, runFetch, processChatBlob,
              hd, hw, hc, hmq, hg', hsec]
          | malformed =>
            simp [fetchConversationsForWorkspace, runFetch, processChatBlob,
              hd, hw, hc, hmq]
          | ok cd =>
            obtain ⟨e, hsec⟩ := globalSection_fails hgq
              ((cd.tabs.getD []).foldl (processTab env.now) ReconState.init)
            simp [fetchConversationsForWorkspace, runFetch, processChatBlob,
              hd, hw, hc, hmq, hg', hsec]
      · simp [fetchConversationsForWorkspace, runFetch, hd, hw]

/-- C3 witness: a missing workspace store file yields the empty list. -/
theorem c3_failure_semantics_amended_witness :
    fetchConversationsForWorkspace c3AbsentEnv = [] :=
  c3_failure_semantics_amended c3AbsentEnv (Or.inl rfl)

/-- Filtering the global scan down to the rows the membership rule admits
does not change the global section's result. -/
theorem globalSection_filter_rows (env : Env) (blob : ComposerMetaBlob)
    (st : ReconState) :
    globalSection
      { env with
        bubbleRows := env.bubbleRows.filter
          (rowFromWorkspace (blob.allComposers.map (fun it => it.composerId))) }
      blob st =
    globalSection env blob st := by
  rw [globalSection, globalSection]
  have hcp : composerPhase
      { env with
        bubbleRows := env.bubbleRows.filter
          (rowFromWorkspace (blob.allComposers.map (fun it => it.composerId))) }
      blob st =
      composerPhase env blob st := rfl
  rw [hcp]
  cases hx : composerPhase env blob st with
  | error e => rfl
  | ok st1 =>
    show globalBubblePhase _ blob st1 = globalBubblePhase env blob st1
    rw [globalBubblePhase, globalBubblePhase]
    dsimp only
    rw [foldl_filter_noop
      (processGlobalBubbleRow env.now blob.allComposers
        (blob.allComposers.map (fun it => it.composerId)))
      (rowFromWorkspace (blob.allComposers.map (fun it => it.composerId)))
      (fun a b hb => processGlobalBubbleRow_foreign env.now blob.allComposers _ a b hb)
      env.bubbleRows st1]

/-- C1: a global-store bubble row whose key-embedded composer id is not in
the workspace-membership set contributes nothing — deleting every such row
from the environment leaves the fetch's output unchanged, so no message
from such a record appears in any conversation and no conversation is
created for it. -/
theorem c1_workspace_isolation (env : Env) :
    fetchConversationsForWorkspace env =
      fetchConversationsForWorkspace
        { env with
          bubbleRows := env.bubbleRows.filter (rowFromWorkspace (workspaceIdsOf env)) } := by
  suffices key : runFetch
      { env with
        bubbleRows := env.bubbleRows.filter (rowFromWorkspace (workspaceIdsOf env)) } =
      runFetch env by
    rw [fetchConversationsForWorkspace, fetchConversationsForWorkspace, key]
  rw [runFetch, runFetch]
  dsimp only
  cases hd : env.wsDbExists
  · rfl
  · cases hw : env.wsOpenThrows
    · cases hc : env.chatQuery with
      | error e => rfl
      | ok chatBlob =>
        try dsimp only
        cases hm : env.composerMetaQuery with
        | error e => rfl
        | ok metaBlob =>
          try dsimp only
          cases hpc : processChatBlob env.now chatBlob ReconState.init with
          | error e => rfl
          | ok st1 =>
            try dsimp only
            cases metaBlob with
            | absent => rfl
            | malformed => rfl
            | ok blob =>
              try dsimp only
              cases hg : env.globalDbExists && !env.globalOpenThrows
              · rfl
              · have hids : workspaceIdsOf env =
                    blob.allComposers.map (fun it => it.composerId) := by
                  rw [workspaceIdsOf, hm]
                have hsec : globalSection
                    { env with
                      bubbleRows := env.bubbleRows.filter
                        (rowFromWorkspace (workspaceIdsOf env)) } blob st1 =
                    globalSection env blob st1 := by
                  rw [hids]
                  exact globalSection_filter_rows env blob st1
                exact congrArg
                  (fun r => match r with
                    | Except.error e => Except.error e
                    | Except.ok st2 => Except.ok (buildFinal st2)) hsec
    · rfl
